import Mathlib

/-!
Verification development for the two-tool Streamlit application
(passport renewal-deadline calculator + compliance template composer),
source `src/app.py`.

The date model embeds Python `datetime.date`: a year/month/day record,
with the proleptic Gregorian calendar and the representable range
year 1 .. 9999 (`datetime.MINYEAR` / `datetime.MAXYEAR`).  Constructing a
date outside that range (via `date.replace` or `date + timedelta`) raises
in Python; fallible operations are therefore embedded as `Option`-valued
functions, `none` meaning an exception escapes.
-/

set_option maxHeartbeats 1000000
set_option maxRecDepth 100000

namespace ComplianceApp

/-- Embedding of Python `datetime.date`: a plain year/month/day record.
Field well-formedness is tracked by the `Valid` predicate below, mirroring
`datetime._check_date_fields`. -/
structure PyDate where
  year : Nat
  month : Nat
  day : Nat
  deriving DecidableEq, Repr

/-- Gregorian leap-year test, as in Python `calendar.isleap` /
`datetime._is_leap`: divisible by 4, and not by 100 unless by 400. -/
def isLeap (y : Nat) : Bool :=
  y % 4 == 0 && (y % 100 != 0 || y % 400 == 0)

/-- Number of days in a month, as in `datetime._days_in_month`. -/
def daysInMonth (y m : Nat) : Nat :=
  match m with
  | 2 => if isLeap y then 29 else 28
  | 4 => 30
  | 6 => 30
  | 9 => 30
  | 11 => 30
  | _ => 31

/-- Structural well-formedness of a year/month/day triple, without the
upper year bound (used for intermediate values of day iteration). -/
def ValidYMD (d : PyDate) : Prop :=
  1 ≤ d.year ∧ 1 ≤ d.month ∧ d.month ≤ 12 ∧ 1 ≤ d.day ∧ d.day ≤ daysInMonth d.year d.month

instance (d : PyDate) : Decidable (ValidYMD d) := by
  unfold ValidYMD; infer_instance

/-- Well-formedness of a Python `datetime.date`: the checks of
`datetime._check_date_fields` (`MINYEAR = 1 ≤ year ≤ MAXYEAR = 9999`,
month and day in range). -/
def Valid (d : PyDate) : Prop :=
  ValidYMD d ∧ d.year ≤ 9999

instance (d : PyDate) : Decidable (Valid d) := by
  unfold Valid; infer_instance

/-- Python `date.__lt__`: lexicographic comparison on (year, month, day). -/
def dateLt (a b : PyDate) : Prop :=
  a.year < b.year ∨
    (a.year = b.year ∧ (a.month < b.month ∨ (a.month = b.month ∧ a.day < b.day)))

instance (a b : PyDate) : Decidable (dateLt a b) := by
  unfold dateLt; infer_instance

/-- Python `date.__le__`. -/
def dateLe (a b : PyDate) : Prop :=
  dateLt a b ∨ a = b

instance (a b : PyDate) : Decidable (dateLe a b) := by
  unfold dateLe; infer_instance

/-- Cumulative days before the start of a month, as in CPython
`datetime._days_before_month` (table `_DAYS_BEFORE_MONTH` plus a leap-day
adjustment when `month > 2`). -/
def daysBeforeMonth (y m : Nat) : Nat :=
  let base : Nat :=
    match m with
    | 0 => 0
    | 1 => 0
    | 2 => 31
    | 3 => 59
    | 4 => 90
    | 5 => 120
    | 6 => 151
    | 7 => 181
    | 8 => 212
    | 9 => 243
    | 10 => 273
    | 11 => 304
    | _ => 334
  if 3 ≤ m ∧ isLeap y = true then base + 1 else base

/-- Days before January 1 of a year, as in CPython
`datetime._days_before_year`: `y = year - 1; y*365 + y//4 - y//100 + y//400`. -/
def daysBeforeYear (y : Nat) : Nat :=
  365 * (y - 1) + (y - 1) / 4 - (y - 1) / 100 + (y - 1) / 400

/-- Proleptic-Gregorian ordinal of a date, as in CPython `date.toordinal`
(`_ymd2ord`): day 1 is January 1 of year 1. -/
def toRataDie (d : PyDate) : Nat :=
  daysBeforeYear d.year + daysBeforeMonth d.year d.month + d.day

/-- Python `(a - b).days` for two dates. -/
def dayDiff (a b : PyDate) : Int :=
  (toRataDie a : Int) - (toRataDie b : Int)

/-- Calendar successor of a date (the date with the next ordinal). -/
def nextDay (d : PyDate) : PyDate :=
  if d.day < daysInMonth d.year d.month then ⟨d.year, d.month, d.day + 1⟩
  else if d.month < 12 then ⟨d.year, d.month + 1, 1⟩
  else ⟨d.year + 1, 1, 1⟩

/-- Python `d + timedelta(days = n)` for `n ≥ 0`: the date whose ordinal is
`d.toordinal() + n` (embedded as `n` calendar successor steps, which shifts
the ordinal by `n`); raises `OverflowError` (`none`) when the result lies
beyond `date.max = 9999-12-31`. -/
def addDays (d : PyDate) (n : Nat) : Option PyDate :=
  let r := nextDay^[n] d
  if r.year ≤ 9999 then some r else none

/-! ### Passport tool (`src/app.py` lines 23-155) -/

/-- `safe_add_years` from `src/app.py`:
`try: return d.replace(year=d.year + years)`
`except ValueError: return d.replace(month=2, day=28, year=d.year + years)`.
`date.replace` rebuilds the date and re-checks all fields, raising
`ValueError` on an invalid result (Feb 29 of a non-leap year, or a year
outside 1..9999); an exception from the fallback `replace` escapes (`none`). -/
def safe_add_years (d : PyDate) (years : Nat) : Option PyDate :=
  if Valid ⟨d.year + years, d.month, d.day⟩ then some ⟨d.year + years, d.month, d.day⟩
  else if Valid ⟨d.year + years, 2, 28⟩ then some ⟨d.year + years, 2, 28⟩
  else none

/-- `current_passport_stage` from `src/app.py`: stage 45 / 20 / 14 by the
interval the issue date falls into, `none` ("странный ввод") otherwise.
The outer `Option` is exception propagation from `safe_add_years`. -/
def current_passport_stage (birth issue : PyDate) : Option (Option Nat) := do
  let d14 ← safe_add_years birth 14
  let d20 ← safe_add_years birth 20
  let d45 ← safe_add_years birth 45
  pure (if dateLe d45 issue then some 45
        else if dateLe d20 issue ∧ dateLt issue d45 then some 20
        else if dateLe d14 issue ∧ dateLt issue d20 then some 14
        else none)

/-- `classify_passport_stage_text` from `src/app.py`. -/
def classify_passport_stage_text (stage : Option Nat) : String :=
  if stage = some 14 then "Первичное получение в 14 лет"
  else if stage = some 20 then "Обмен в 20 лет"
  else if stage = some 45 then "Обмен в 45 лет"
  else "Не удалось однозначно определить (проверьте ввод)"

/-- The dictionary returned by `compute_status`. -/
structure StatusReport where
  stage_label : String
  next_change : Option PyDate
  deadline : Option PyDate
  status_kind : String
  days_left : Option Int
  deriving DecidableEq, Repr

/-- `compute_status` from `src/app.py` lines 59-124, translated clause by
clause; the outer `Option` is exception propagation from date arithmetic. -/
def compute_status (birth issue today : PyDate) : Option StatusReport := do
  let d20 ← safe_add_years birth 20
  let d45 ← safe_add_years birth 45
  let stage ← current_passport_stage birth issue
  let stage_label := classify_passport_stage_text stage
  let age_next_change : Option PyDate :=
    if dateLt today d20 then some d20
    else if dateLt today d45 then some d45
    else none
  if stage = some 45 then
    pure ⟨stage_label, none, none, "no_more", none⟩
  else
    let next_change : Option PyDate :=
      if stage = some 20 then some d45
      else if stage = some 14 then some d20
      else age_next_change
    match next_change with
    | none => pure ⟨stage_label, none, none, "no_more", none⟩
    | some nc => do
      let deadline ← addDays nc 90
      if dateLt deadline today then
        pure ⟨stage_label, some nc, some deadline, "invalid", none⟩
      else if dateLe nc today then
        pure ⟨stage_label, some nc, some deadline, "due", some (dayDiff deadline today)⟩
      else
        pure ⟨stage_label, some nc, some deadline, "ok", some (dayDiff nc today)⟩

/-- The deadline determined by an optional next-change date:
`next_change + timedelta(days=90)` when present. -/
def deadlineOf (o : Option PyDate) : Option PyDate :=
  match o with
  | none => none
  | some nc => addDays nc 90

/-- Position of a stage value in the progression
Unknown < FourteenYearStage < TwentyYearStage < FortyFiveYearStage. -/
def stageRank : Option Nat → Nat
  | none => 0
  | some n => if n = 14 then 1 else if n = 20 then 2 else if n = 45 then 3 else 0

/-! ### Validation (`src/app.py` lines 17-20 and 127-155) -/

/-- `dateutil.relativedelta.__radd__` for a pure month offset: add `m`
months to a date, normalizing the month index with floor division (as
Python `divmod` does) and clamping the day to the length of the target
month (`min(calendar.monthrange(..)[1], other.day)`). -/
def addMonths (d : PyDate) (m : Int) : PyDate :=
  let t : Int := (d.year : Int) * 12 + ((d.month : Int) - 1) + m
  let y : Nat := (t.fdiv 12).toNat
  let mo : Nat := (t.fmod 12 + 1).toNat
  ⟨y, mo, min d.day (daysInMonth y mo)⟩

/-- The normalized month count of `dateutil.relativedelta(t, b)`: the
initial estimate `(t.year - b.year)*12 + (t.month - b.month)` lands in
`t`'s own year/month, so the correction loop of `relativedelta.__init__`
(`while compare(dt1, dtm): months += increment`) executes at most one
step, here written as a single conditional adjustment. -/
def rd_months (t b : PyDate) : Int :=
  let m0 : Int := ((t.year : Int) - (b.year : Int)) * 12 +
    ((t.month : Int) - (b.month : Int))
  if dateLt t b then
    (if dateLt (addMonths b m0) t then m0 + 1 else m0)
  else
    (if dateLt t (addMonths b m0) then m0 - 1 else m0)

/-- `relativedelta(t, b).years`: `_set_months` splits the month count as
`sign(months) * (|months| // 12)` years, i.e. division by 12 rounding
toward zero, which is `Int.tdiv`. -/
def rd_years (t b : PyDate) : Int :=
  Int.tdiv (rd_months t b) 12

/-- Two-digit zero padding, as in `strftime` day/month fields. -/
def pad2 (n : Nat) : String :=
  if n < 10 then "0" ++ toString n else toString n

/-- Python `strftime('%d.%m.%Y')` on Linux: zero-padded day and month,
year printed unpadded (every year formatted by this app is ≥ 1900). -/
def fmtDMY (d : PyDate) : String :=
  pad2 d.day ++ "." ++ pad2 d.month ++ "." ++ toString d.year

/-- `MIN_BIRTH = MIN_ISSUE = date(1900, 1, 1)` from `src/app.py`. -/
def MIN_BIRTH : PyDate := ⟨1900, 1, 1⟩

/-- Same value as `MIN_BIRTH`, kept under the source's second name. -/
def MIN_ISSUE : PyDate := ⟨1900, 1, 1⟩

def msg_birth_future : String := "Дата рождения не может быть в будущем."

def msg_issue_future : String := "Дата выдачи паспорта не может быть в будущем."

def msg_issue_before_birth : String :=
  "Дата выдачи паспорта не может быть раньше даты рождения."

def msg_under_14 : String := "Лицу младше 14 лет паспорт ещё не выдается."

def msg_issue_before_d14 : String :=
  "Паспорт не может быть выдан ранее достижения 14 лет. Проверьте дату выдачи."

/-- The f-string of the birth-range rule, with
`MAX_BIRTH = date.today()` rendered from the given `today`. -/
def msg_birth_range (today : PyDate) : String :=
  "Дата рождения должна быть в диапазоне " ++ fmtDMY MIN_BIRTH ++ "–" ++
    fmtDMY today ++ "."

/-- The f-string of the issue-range rule. -/
def msg_issue_range (today : PyDate) : String :=
  "Дата выдачи должна быть в диапазоне " ++ fmtDMY MIN_ISSUE ++ "–" ++
    fmtDMY today ++ "."

/-- `validate_inputs` from `src/app.py` lines 127-155, one conditional
append per rule, in source order.  The module-level bounds
`MAX_BIRTH = MAX_ISSUE = date.today()` are modelled by the same `today`
the caller passes (module load and button click happen on the same day).
`none` models the `ValueError` escaping from `safe_add_years(birth, 14)`
when `birth.year + 14 > 9999`; the `relativedelta` call never raises for
well-formed dates. -/
def validate_inputs (birth issue today : PyDate) : Option (List String) :=
  match safe_add_years birth 14 with
  | none => none
  | some d14 =>
    some ((if dateLt today birth then [msg_birth_future] else []) ++
          (if dateLt today issue then [msg_issue_future] else []) ++
          (if dateLt issue birth then [msg_issue_before_birth] else []) ++
          (if rd_years today birth < 14 then [msg_under_14] else []) ++
          (if dateLt issue d14 then [msg_issue_before_d14] else []) ++
          (if ¬ (dateLe MIN_BIRTH birth ∧ dateLe birth today) then
            [msg_birth_range today] else []) ++
          (if ¬ (dateLe MIN_ISSUE issue ∧ dateLe issue today) then
            [msg_issue_range today] else []))

/-! ### Compliance template tool (`src/app.py` lines 221-343) -/

/-- The two request languages offered by the radio widget
(the keys of `intro_texts`). -/
inductive Lang where
  | Russian
  | English
  deriving DecidableEq, Repr

/-- The per-(category, language) text record of the `blocks` table. -/
structure TextBlock where
  lead : String
  add : String
  final : String
  rest : String
  deriving DecidableEq, Repr

/-- `intro_texts` from `src/app.py`. -/
def intro_texts : Lang → String
  | Lang.Russian => "Добрый день,\n\nв соответствии с требованиями регулятора FSC Белиза и законодательством по борьбе с отмыванием денежных средств RoboForex Ltd обязана на регулярной основе осуществлять постоянную проверку и мониторинг личной информации своих клиентов."
  | Lang.English => "Hello,\n\nin accordance with the requirements of the FSC Belize regulator and anti-money laundering legislation, RoboForex Ltd is obliged to regularly verify and monitor the personal information of its clients."

/-- `closing_texts` from `src/app.py`. -/
def closing_texts : Lang → String
  | Lang.Russian => "Мы ценим ваше сотрудничество.\n\nЕсли у вас есть какие-либо вопросы, пожалуйста, свяжитесь с нами.\n\nС уважением,"
  | Lang.English => "We appreciate your cooperation.\n\nIf you have any questions, please contact us.\n\nBest regards,"

/-- `blocks["SOF"]["Russian"]` from `src/app.py`. -/
def sof_ru : TextBlock :=
  ⟨"В связи с этим, мы просим вас предоставить информацию об источнике средств, которые были зачислены на ваши торговые счета в RoboForex Ltd.",
   "Также, пожалуйста, предоставьте информацию об источнике средств, которые были зачислены на ваши торговые счета в RoboForex Ltd.",
   "Помимо этого, пожалуйста, предоставьте информацию об источнике средств, которые были зачислены на ваши торговые счета в RoboForex Ltd.",
   "\n\nПрилагаем список документов, которые можно использовать для проверки происхождения средств.\n\nВы можете предоставить нам любые документы, такие как: справки о зарплате, налоговые декларации, доходы от бизнеса, продажи имущества и т. д. или любой другой документ, указанный в прилагаемом документе."⟩

/-- `blocks["SOF"]["English"]` from `src/app.py`. -/
def sof_en : TextBlock :=
  ⟨"In this regard, we ask you to provide information on the source of funds credited to your trading accounts with RoboForex Ltd.",
   "Additionally, please provide information on the source of funds credited to your trading accounts with RoboForex Ltd.",
   "Moreover, please provide information on the source of funds credited to your trading accounts with RoboForex Ltd.",
   "\n\nAttached is a list of documents that can be used to verify the origin of funds.\n\nYou can provide us with any documents, such as salary certificates, tax returns, business income, property sales, etc., or any other document specified in the attached document."⟩

/-- `blocks["ID"]["Russian"]` from `src/app.py`. -/
def id_ru : TextBlock :=
  ⟨"В связи с этим, мы просим вас предоставить скан или фото актуального паспорта, удостоверяющего вашу личность.",
   "Также, пожалуйста, предоставьте скан или фото актуального паспорта, удостоверяющего вашу личность.",
   "Помимо этого, пожалуйста, предоставьте скан или фото актуального паспорта, удостоверяющего вашу личность.",
   ""⟩

/-- `blocks["ID"]["English"]` from `src/app.py`. -/
def id_en : TextBlock :=
  ⟨"In this regard, we ask you to provide a scan or photo of your valid passport or another identity document.",
   "Additionally, please provide a scan or photo of your valid passport or another identity document.",
   "Moreover, please provide a scan or photo of your valid passport or another identity document.",
   ""⟩

/-- `blocks["UB"]["Russian"]` from `src/app.py`. -/
def ub_ru : TextBlock :=
  ⟨"В связи с этим, мы просим вас предоставить счёт за коммунальные услуги или банковскую выписку для подтверждения вашего адреса проживания.",
   "Также, пожалуйста, предоставьте счёт за коммунальные услуги или банковскую выписку для подтверждения вашего адреса проживания.",
   "Помимо этого, пожалуйста, предоставьте счёт за коммунальные услуги или банковскую выписку для подтверждения вашего адреса проживания.",
   ""⟩

/-- `blocks["UB"]["English"]` from `src/app.py`. -/
def ub_en : TextBlock :=
  ⟨"In this regard, we ask you to provide a utility bill or a bank statement to confirm your residential address.",
   "Additionally, please provide a utility bill or a bank statement to confirm your residential address.",
   "Moreover, please provide a utility bill or a bank statement to confirm your residential address.",
   ""⟩

/-- The nested dictionary `blocks` from `src/app.py`: `blocks[r][lang]`;
`none` models the `KeyError` for a key outside SOF/ID/UB. -/
def blocks (r : String) (lang : Lang) : Option TextBlock :=
  match r, lang with
  | "SOF", Lang.Russian => some sof_ru
  | "SOF", Lang.English => some sof_en
  | "ID", Lang.Russian => some id_ru
  | "ID", Lang.English => some id_en
  | "UB", Lang.Russian => some ub_ru
  | "UB", Lang.English => some ub_en
  | _, _ => none

/-- `PRIORITY = ["SOF", "ID", "UB"]` from `src/app.py`. -/
def PRIORITY : List String := ["SOF", "ID", "UB"]

/-- `sort_by_priority` from `src/app.py`:
`[k for k in PRIORITY if k in keys]`. -/
def sort_by_priority (keys : List String) : List String :=
  PRIORITY.filter (fun k => keys.contains k)

/-- The characters removed by Python `str.strip()` with no argument
(ASCII whitespace; the text tables use only spaces and newlines). -/
def pyWS (c : Char) : Bool :=
  c == ' ' || c == '\t' || c == '\n' || c == '\r' || c == '\x0b' || c == '\x0c'

/-- Python `str.strip()`: drop leading and trailing whitespace. -/
def pyStrip (s : String) : String :=
  String.mk (((s.data.dropWhile pyWS).reverse.dropWhile pyWS).reverse)

/-- `render_middle_adaptive` from `src/app.py`: order the requested keys
by priority, pick the lead / "add" / "final" sentence by 0-based position,
append the category's `rest` boilerplate (`seg.get("rest", "")`; every
table row carries a `rest` field), strip each block, and join with blank
lines.  `none` models a `KeyError` from the `blocks` lookup (unreachable
for priority-filtered keys). -/
def render_middle_adaptive (lang : Lang) (reqs : List String) : Option String := do
  let ordered := sort_by_priority reqs
  let parts ← ordered.enum.mapM (fun p => do
    let seg ← blocks p.2 lang
    let first_sentence :=
      if p.1 = 0 then seg.lead
      else if p.1 = 1 then seg.add
      else seg.final
    pure (pyStrip (first_sentence ++ seg.rest)))
  pure (String.intercalate "\n\n" parts)

/-- The full composed message: `render_middle_adaptive` wrapped as in
`compliance_app` (`src/app.py` line 343):
`f"{intro_texts[language]}\n\n{middle_text}\n\n{closing_texts[language]}".strip()`. -/
def compose (lang : Lang) (reqs : List String) : Option String :=
  (render_middle_adaptive lang reqs).map (fun middle =>
    pyStrip (intro_texts lang ++ "\n\n" ++ middle ++ "\n\n" ++ closing_texts lang))

/-- The `RequestCategory` enumeration of the specification data model. -/
inductive Cat where
  | SOF
  | ID
  | UB
  deriving DecidableEq, Repr

/-- Internal code of a request category (spec §3). -/
def catKey : Cat → String
  | Cat.SOF => "SOF"
  | Cat.ID => "ID"
  | Cat.UB => "UB"

/-- The (category, language) text table of the specification, the same
literal data as `blocks` but total over the enumerated categories. -/
def textBlock : Cat → Lang → TextBlock
  | Cat.SOF, Lang.Russian => sof_ru
  | Cat.SOF, Lang.English => sof_en
  | Cat.ID, Lang.Russian => id_ru
  | Cat.ID, Lang.English => id_en
  | Cat.UB, Lang.Russian => ub_ru
  | Cat.UB, Lang.English => ub_en

/-- Composition as the specification §4.2 words it (steps 2-5): keep the
categories present in the request in the fixed priority order
SOF, ID, UB; for the category at 0-based position i take its lead
sentence if i=0, its additional sentence if i=1, its final/moreover
sentence if i≥2; append the category's trailing boilerplate and trim the
block; join blocks with blank lines; wrap with the language's intro above
and closing below, each separated by a blank line, and trim the result. -/
def composeSpec (lang : Lang) (reqs : List String) : String :=
  let cats := [Cat.SOF, Cat.ID, Cat.UB].filter (fun c => reqs.contains (catKey c))
  let blockTexts := cats.enum.map (fun p =>
    pyStrip ((if p.1 = 0 then (textBlock p.2 lang).lead
              else if p.1 = 1 then (textBlock p.2 lang).add
              else (textBlock p.2 lang).final) ++ (textBlock p.2 lang).rest))
  pyStrip (intro_texts lang ++ "\n\n" ++ String.intercalate "\n\n" blockTexts ++
    "\n\n" ++ closing_texts lang)

/-! ### Clipboard escaping (`src/app.py` lines 310-317) -/

/-- Python `str.replace(pat, rep)` on character lists: replace leftmost
non-overlapping occurrences, scanning left to right.  (For the empty
pattern, which `js_escape` never uses, this copies the string unchanged
rather than interleaving the replacement.) -/
def replaceL (pat rep : List Char) : List Char → List Char
  | [] => []
  | c :: rest =>
    if pat ≠ [] ∧ pat.isPrefixOf (c :: rest) then
      rep ++ replaceL pat rep (List.drop (pat.length - 1) rest)
    else
      c :: replaceL pat rep rest
  termination_by s => s.length
  decreasing_by
    · simp only [List.length_drop, List.length_cons]
      omega
    · simp only [List.length_cons]
      omega

/-- `js_escape` from `src/app.py`, on the character-list model of Python
strings; the five `replace` passes in source order (backtick is
`Char.ofNat 96`, the left brace of the dollar-brace sequence is
`Char.ofNat 123`). -/
def js_escape (s : List Char) : List Char :=
  replaceL ['\\'] ['\\', '\\'] s
  |> replaceL [Char.ofNat 96] ['\\', Char.ofNat 96]
  |> replaceL ['$', Char.ofNat 123] ['\\', '$', Char.ofNat 123]
  |> replaceL ['\r'] []
  |> replaceL ['\n'] ['\\', 'n']

/-! ### Order lemmas for the date comparison -/

theorem dateLt_irrefl (a : PyDate) : ¬ dateLt a a := by
  obtain ⟨y, m, d⟩ := a
  simp [dateLt]

theorem dateLt_trans {a b c : PyDate} (h1 : dateLt a b) (h2 : dateLt b c) :
    dateLt a c := by
  obtain ⟨y1, m1, d1⟩ := a; obtain ⟨y2, m2, d2⟩ := b; obtain ⟨y3, m3, d3⟩ := c
  simp only [dateLt] at *
  omega

theorem dateLt_asymm {a b : PyDate} (h : dateLt a b) : ¬ dateLt b a := by
  obtain ⟨y1, m1, d1⟩ := a; obtain ⟨y2, m2, d2⟩ := b
  simp only [dateLt] at *
  omega

theorem dateLt_total (a b : PyDate) : dateLt a b ∨ a = b ∨ dateLt b a := by
  obtain ⟨y1, m1, d1⟩ := a; obtain ⟨y2, m2, d2⟩ := b
  simp only [dateLt, PyDate.mk.injEq]
  omega

theorem not_dateLt_iff {a b : PyDate} : ¬ dateLt a b ↔ dateLe b a := by
  constructor
  · intro h
    rcases dateLt_total a b with h' | h' | h'
    · exact absurd h' h
    · exact Or.inr h'.symm
    · exact Or.inl h'
  · rintro (h' | rfl) h
    · exact dateLt_asymm h' h
    · exact dateLt_irrefl _ h

theorem dateLt_iff_not_dateLe {a b : PyDate} : dateLt a b ↔ ¬ dateLe b a := by
  rw [← not_dateLt_iff, not_not]

theorem dateLe_refl (a : PyDate) : dateLe a a := Or.inr rfl

theorem dateLt_of_dateLt_of_dateLe {a b c : PyDate} (h1 : dateLt a b)
    (h2 : dateLe b c) : dateLt a c := by
  rcases h2 with h2 | rfl
  · exact dateLt_trans h1 h2
  · exact h1

theorem dateLt_of_dateLe_of_dateLt {a b c : PyDate} (h1 : dateLe a b)
    (h2 : dateLt b c) : dateLt a c := by
  rcases h1 with h1 | rfl
  · exact dateLt_trans h1 h2
  · exact h2

theorem dateLe_trans {a b c : PyDate} (h1 : dateLe a b) (h2 : dateLe b c) :
    dateLe a c := by
  rcases h1 with h1 | rfl
  · exact Or.inl (dateLt_of_dateLt_of_dateLe h1 h2)
  · exact h2

theorem not_dateLe_of_dateLt {a b : PyDate} (h : dateLt a b) : ¬ dateLe b a := by
  rintro (h' | rfl)
  · exact dateLt_asymm h h'
  · exact dateLt_irrefl _ h

/-! ### Calendar arithmetic lemmas -/

theorem one_le_daysInMonth (y m : Nat) : 1 ≤ daysInMonth y m := by
  unfold daysInMonth
  split <;> first | omega | (split <;> omega)

theorem isLeap_iff {y : Nat} :
    isLeap y = true ↔ y % 4 = 0 ∧ (y % 100 ≠ 0 ∨ y % 400 = 0) := by
  simp [isLeap]

theorem daysBeforeMonth_step {y m : Nat} (h1 : 1 ≤ m) (h2 : m ≤ 11) :
    daysBeforeMonth y (m + 1) = daysBeforeMonth y m + daysInMonth y m := by
  by_cases hl : isLeap y = true <;>
    (interval_cases m <;> simp [daysBeforeMonth, daysInMonth, hl])

theorem daysBeforeYear_succ {y : Nat} (h : 1 ≤ y) :
    daysBeforeYear (y + 1) =
      daysBeforeYear y + (if isLeap y = true then 366 else 365) := by
  obtain ⟨n, rfl⟩ : ∃ n, y = n + 1 := ⟨y - 1, by omega⟩
  by_cases hl : isLeap (n + 1) = true
  · rw [if_pos hl]
    rw [isLeap_iff] at hl
    simp only [daysBeforeYear, Nat.add_sub_cancel]
    omega
  · rw [if_neg hl]
    rw [isLeap_iff] at hl
    push_neg at hl
    simp only [daysBeforeYear, Nat.add_sub_cancel]
    omega

theorem daysBeforeYear_le_succ (y : Nat) :
    daysBeforeYear y ≤ daysBeforeYear (y + 1) := by
  cases y with
  | zero => simp [daysBeforeYear]
  | succ n =>
    rw [daysBeforeYear_succ (y := n + 1) (by omega)]
    split <;> omega

theorem daysBeforeYear_mono {y1 y2 : Nat} (h : y1 ≤ y2) :
    daysBeforeYear y1 ≤ daysBeforeYear y2 := by
  induction y2 with
  | zero =>
    have : y1 = 0 := by omega
    subst this; exact le_refl _
  | succ k ih =>
    rcases Nat.lt_or_ge y1 (k + 1) with h' | h'
    · exact le_trans (ih (by omega)) (daysBeforeYear_le_succ k)
    · have : y1 = k + 1 := by omega
      subst this; exact le_refl _

theorem toRataDie_lower {d : PyDate} (h : ValidYMD d) :
    daysBeforeYear d.year + 1 ≤ toRataDie d := by
  obtain ⟨y, m, dd⟩ := d
  unfold ValidYMD at h
  unfold toRataDie
  dsimp only at h ⊢
  omega

theorem toRataDie_upper {d : PyDate} (h : ValidYMD d) :
    toRataDie d ≤ daysBeforeYear (d.year + 1) := by
  obtain ⟨y, m, dd⟩ := d
  unfold ValidYMD at h
  unfold toRataDie
  dsimp only at h ⊢
  obtain ⟨h1, h2, h3, h4, h5⟩ := h
  rw [daysBeforeYear_succ (y := y) h1]
  by_cases hl : isLeap y = true <;>
    (interval_cases m <;>
      simp [daysBeforeMonth, daysInMonth, hl] at h5 ⊢ <;>
      omega)

theorem daysBeforeMonth_lt {y ma mb da db : Nat} (h1 : 1 ≤ ma) (h2 : ma < mb)
    (h3 : mb ≤ 12) (h4 : da ≤ daysInMonth y ma) (h5 : 1 ≤ db) :
    daysBeforeMonth y ma + da < daysBeforeMonth y mb + db := by
  have hma : ma ≤ 11 := by omega
  by_cases hl : isLeap y = true <;>
    (interval_cases ma <;> interval_cases mb <;>
      simp [daysBeforeMonth, daysInMonth, hl] at h4 ⊢ <;>
      omega)

theorem toRataDie_lt_of_dateLt {a b : PyDate} (ha : ValidYMD a) (hb : ValidYMD b)
    (h : dateLt a b) : toRataDie a < toRataDie b := by
  obtain ⟨y1, m1, d1⟩ := a; obtain ⟨y2, m2, d2⟩ := b
  unfold ValidYMD at ha hb
  unfold dateLt at h
  unfold toRataDie
  dsimp only at ha hb h ⊢
  obtain ⟨ha1, ha2, ha3, ha4, ha5⟩ := ha
  obtain ⟨hb1, hb2, hb3, hb4, hb5⟩ := hb
  rcases h with h | ⟨hy, h⟩
  · have u1 : daysBeforeYear y1 + daysBeforeMonth y1 m1 + d1 ≤
        daysBeforeYear (y1 + 1) := by
      have := toRataDie_upper (d := ⟨y1, m1, d1⟩)
        ⟨ha1, ha2, ha3, ha4, ha5⟩
      simpa [toRataDie] using this
    have u2 : daysBeforeYear (y1 + 1) ≤ daysBeforeYear y2 :=
      daysBeforeYear_mono (by omega)
    have u3 : 1 ≤ daysBeforeMonth y2 m2 + d2 := by omega
    omega
  · subst hy
    rcases h with h | ⟨hm, h⟩
    · have := daysBeforeMonth_lt (y := y1) ha2 h hb3 ha5 hb4
      omega
    · subst hm
      omega

theorem toRataDie_le_of_dateLe {a b : PyDate} (ha : ValidYMD a) (hb : ValidYMD b)
    (h : dateLe a b) : toRataDie a ≤ toRataDie b := by
  rcases h with h | rfl
  · exact le_of_lt (toRataDie_lt_of_dateLt ha hb h)
  · exact le_refl _

theorem dateLt_of_toRataDie_lt {a b : PyDate} (ha : ValidYMD a) (hb : ValidYMD b)
    (h : toRataDie a < toRataDie b) : dateLt a b := by
  rcases dateLt_total a b with h' | rfl | h'
  · exact h'
  · omega
  · exact absurd (toRataDie_lt_of_dateLt hb ha h') (by omega)

theorem dateLe_of_toRataDie_le {a b : PyDate} (ha : ValidYMD a) (hb : ValidYMD b)
    (h : toRataDie a ≤ toRataDie b) : dateLe a b := by
  rcases dateLt_total a b with h' | rfl | h'
  · exact Or.inl h'
  · exact dateLe_refl a
  · exact absurd (toRataDie_lt_of_dateLt hb ha h') (by omega)

/-! ### Day-stepping lemmas -/

theorem nextDay_spec {d : PyDate} (h : ValidYMD d) :
    ValidYMD (nextDay d) ∧ toRataDie (nextDay d) = toRataDie d + 1 := by
  obtain ⟨y, m, dd⟩ := d
  have h' : 1 ≤ y ∧ 1 ≤ m ∧ m ≤ 12 ∧ 1 ≤ dd ∧ dd ≤ daysInMonth y m := h
  obtain ⟨h1, h2, h3, h4, h5⟩ := h'
  by_cases hd : dd < daysInMonth y m
  · have e : nextDay ⟨y, m, dd⟩ = ⟨y, m, dd + 1⟩ := by
      simp [nextDay, hd]
    rw [e]
    constructor
    · show 1 ≤ y ∧ 1 ≤ m ∧ m ≤ 12 ∧ 1 ≤ dd + 1 ∧ dd + 1 ≤ daysInMonth y m
      omega
    · show daysBeforeYear y + daysBeforeMonth y m + (dd + 1) =
        daysBeforeYear y + daysBeforeMonth y m + dd + 1
      omega
  · by_cases hm : m < 12
    · have e : nextDay ⟨y, m, dd⟩ = ⟨y, m + 1, 1⟩ := by
        simp [nextDay, hd, hm]
      rw [e]
      have hstep := daysBeforeMonth_step (y := y) h2 (by omega)
      have hone := one_le_daysInMonth y (m + 1)
      constructor
      · show 1 ≤ y ∧ 1 ≤ m + 1 ∧ m + 1 ≤ 12 ∧ 1 ≤ 1 ∧ 1 ≤ daysInMonth y (m + 1)
        omega
      · show daysBeforeYear y + daysBeforeMonth y (m + 1) + 1 =
          daysBeforeYear y + daysBeforeMonth y m + dd + 1
        omega
    · have hm12 : m = 12 := by omega
      subst hm12
      have hdim : daysInMonth y 12 = 31 := rfl
      have hdd : dd = 31 := by omega
      subst hdd
      have e : nextDay ⟨y, 12, 31⟩ = ⟨y + 1, 1, 1⟩ := by
        simp [nextDay, daysInMonth]
      rw [e]
      have hy' := daysBeforeYear_succ (y := y) h1
      have h12 : daysBeforeMonth y 12 = if isLeap y = true then 335 else 334 := by
        by_cases hl : isLeap y = true <;> simp [daysBeforeMonth, hl]
      have h1' : daysBeforeMonth (y + 1) 1 = 0 := by simp [daysBeforeMonth]
      constructor
      · show 1 ≤ y + 1 ∧ 1 ≤ 1 ∧ 1 ≤ 12 ∧ 1 ≤ 1 ∧ 1 ≤ daysInMonth (y + 1) 1
        have h31 : daysInMonth (y + 1) 1 = 31 := rfl
        omega
      · show daysBeforeYear (y + 1) + daysBeforeMonth (y + 1) 1 + 1 =
          daysBeforeYear y + daysBeforeMonth y 12 + 31 + 1
        rw [h1', h12, hy']
        split_ifs <;> omega

theorem iterate_nextDay_spec (n : Nat) {d : PyDate} (h : ValidYMD d) :
    ValidYMD (nextDay^[n] d) ∧ toRataDie (nextDay^[n] d) = toRataDie d + n := by
  induction n with
  | zero => simpa using h
  | succ k ih =>
    rw [Function.iterate_succ_apply']
    obtain ⟨ih1, ih2⟩ := ih
    obtain ⟨s1, s2⟩ := nextDay_spec ih1
    exact ⟨s1, by omega⟩

theorem addDays_spec {d r : PyDate} {n : Nat} (h : ValidYMD d)
    (hr : addDays d n = some r) :
    ValidYMD r ∧ r.year ≤ 9999 ∧ toRataDie r = toRataDie d + n := by
  unfold addDays at hr
  dsimp only at hr
  split_ifs at hr with hy
  · obtain ⟨i1, i2⟩ := iterate_nextDay_spec n h
    cases hr
    exact ⟨i1, hy, i2⟩

theorem addDays_isSome {d : PyDate} {n : Nat} (h : ValidYMD d)
    (hb : toRataDie d + n ≤ daysBeforeYear 10000) :
    (addDays d n).isSome = true := by
  unfold addDays
  dsimp only
  obtain ⟨i1, i2⟩ := iterate_nextDay_spec n h
  split_ifs with hy
  · rfl
  · exfalso
    have hlow := toRataDie_lower i1
    have hmono : daysBeforeYear 10000 ≤ daysBeforeYear (nextDay^[n] d).year :=
      daysBeforeYear_mono (by omega)
    omega

/-! ### `safe_add_years` lemmas -/

theorem safe_add_years_some {d r : PyDate} {n : Nat}
    (h : safe_add_years d n = some r) : Valid r ∧ r.year = d.year + n := by
  unfold safe_add_years at h
  split_ifs at h with h1 h2
  · cases h; exact ⟨h1, rfl⟩
  · cases h; exact ⟨h2, rfl⟩

theorem safe_add_years_isSome {d : PyDate} {n : Nat} (h : Valid d)
    (hy : d.year + n ≤ 9999) : (safe_add_years d n).isSome = true := by
  obtain ⟨y, m, dd⟩ := d
  have h' : (1 ≤ y ∧ 1 ≤ m ∧ m ≤ 12 ∧ 1 ≤ dd ∧ dd ≤ daysInMonth y m) ∧ y ≤ 9999 := h
  have hy' : y + n ≤ 9999 := hy
  obtain ⟨⟨h1, h2, h3, h4, h5⟩, h6⟩ := h'
  unfold safe_add_years
  split_ifs with hc hf
  · rfl
  · rfl
  · exfalso
    apply hf
    show (1 ≤ y + n ∧ 1 ≤ 2 ∧ 2 ≤ 12 ∧ 1 ≤ 28 ∧ 28 ≤ daysInMonth (y + n) 2) ∧
      y + n ≤ 9999
    have h28 : 28 ≤ daysInMonth (y + n) 2 := by
      show 28 ≤ if isLeap (y + n) then 29 else 28
      split <;> omega
    omega

/-- Convenience form: the dates produced by `safe_add_years` are valid and
shift the year by exactly the requested amount. -/
theorem safe_add_years_year_lt {d a b : PyDate} {n m : Nat} (hnm : n < m)
    (ha : safe_add_years d n = some a) (hb : safe_add_years d m = some b) :
    dateLt a b := by
  obtain ⟨_, hay⟩ := safe_add_years_some ha
  obtain ⟨_, hby⟩ := safe_add_years_some hb
  exact Or.inl (by omega)


/-- Exhaustive description of the result of `compute_status`: either one of
the two `no_more` early returns, or the classification branch with its
three mutually exclusive outcomes.  All later theorems about
`compute_status` are derived from this case analysis. -/
theorem compute_status_cases (b i t : PyDate) (rep : StatusReport)
    (hrun : compute_status b i t = some rep) :
    (rep.next_change = none ∧ rep.deadline = none ∧ rep.status_kind = "no_more" ∧
      rep.days_left = none) ∨
    (∃ nc dl, rep.next_change = some nc ∧ rep.deadline = some dl ∧
      Valid nc ∧ ValidYMD dl ∧ dl.year ≤ 9999 ∧
      toRataDie dl = toRataDie nc + 90 ∧ addDays nc 90 = some dl ∧
      ((dateLt dl t ∧ rep.status_kind = "invalid" ∧ rep.days_left = none) ∨
       (¬ dateLt dl t ∧ dateLe nc t ∧ rep.status_kind = "due" ∧
         rep.days_left = some (dayDiff dl t)) ∨
       (¬ dateLt dl t ∧ ¬ dateLe nc t ∧ rep.status_kind = "ok" ∧
         rep.days_left = some (dayDiff nc t)))) := by
  cases h20 : safe_add_years b 20 with
  | none => simp [compute_status, h20] at hrun
  | some d20 =>
  cases h45 : safe_add_years b 45 with
  | none => simp [compute_status, h20, h45] at hrun
  | some d45 =>
  cases hst : current_passport_stage b i with
  | none => simp [compute_status, h20, h45, hst] at hrun
  | some stage =>
  simp only [compute_status, h20, h45, hst, Option.bind_eq_bind, Option.some_bind,
    Option.pure_def] at hrun
  by_cases hs45 : stage = some 45
  · rw [if_pos hs45] at hrun
    injection hrun with h
    subst h
    left
    exact ⟨rfl, rfl, rfl, rfl⟩
  · rw [if_neg hs45] at hrun
    cases hnc : (if stage = some 20 then some d45
        else if stage = some 14 then some d20
        else if dateLt t d20 then some d20
        else if dateLt t d45 then some d45
        else none) with
    | none =>
      simp only [hnc] at hrun
      injection hrun with h
      subst h
      left
      exact ⟨rfl, rfl, rfl, rfl⟩
    | some nc =>
      have hvnc : Valid nc := by
        split_ifs at hnc <;>
          first
            | exact Option.noConfusion hnc
            | (injection hnc with h; subst h;
               first
                 | exact (safe_add_years_some h45).1
                 | exact (safe_add_years_some h20).1)
      simp only [hnc] at hrun
      cases hdl : addDays nc 90 with
      | none =>
        rw [hdl] at hrun
        simp at hrun
      | some dl =>
        rw [hdl, Option.some_bind] at hrun
        obtain ⟨hs1, hs2, hs3⟩ := addDays_spec (d := nc) (r := dl) hvnc.1 hdl
        right
        split_ifs at hrun with hI hD
        · injection hrun with h; subst h
          exact ⟨nc, dl, rfl, rfl, hvnc, hs1, hs2, hs3, hdl, Or.inl ⟨hI, rfl, rfl⟩⟩
        · injection hrun with h; subst h
          exact ⟨nc, dl, rfl, rfl, hvnc, hs1, hs2, hs3, hdl,
            Or.inr (Or.inl ⟨hI, hD, rfl, rfl⟩)⟩
        · injection hrun with h; subst h
          exact ⟨nc, dl, rfl, rfl, hvnc, hs1, hs2, hs3, hdl,
            Or.inr (Or.inr ⟨hI, hD, rfl, rfl⟩)⟩


/-- C2: every `StatusReport` produced by `compute_status` satisfies the
record invariant: `no_more` implies both `next_change` and `deadline` are
absent; `invalid` implies `days_left` is absent; and the deadline, when
present, is exactly `next_change + 90 days`. -/
theorem compute_status_invariants (b i t : PyDate) (rep : StatusReport)
    (hrun : compute_status b i t = some rep) :
    (rep.status_kind = "no_more" → rep.next_change = none ∧ rep.deadline = none) ∧
    (rep.status_kind = "invalid" → rep.days_left = none) ∧
    rep.deadline = deadlineOf rep.next_change := by
  rcases compute_status_cases b i t rep hrun with
    ⟨h1, h2, h3, h4⟩ | ⟨nc, dl, h1, h2, _, _, _, _, hdl, hcase⟩
  · refine ⟨fun _ => ⟨h1, h2⟩, fun _ => h4, ?_⟩
    rw [h1, h2]; rfl
  · refine ⟨?_, ?_, ?_⟩
    · intro hk
      rcases hcase with ⟨_, hsk, _⟩ | ⟨_, _, hsk, _⟩ | ⟨_, _, hsk, _⟩ <;>
        (rw [hsk] at hk; exact absurd hk (by decide))
    · intro hk
      rcases hcase with ⟨_, _, hdlft⟩ | ⟨_, _, hsk, _⟩ | ⟨_, _, hsk, _⟩
      · exact hdlft
      · rw [hsk] at hk; exact absurd hk (by decide)
      · rw [hsk] at hk; exact absurd hk (by decide)
    · rw [h1, h2]
      show some dl = addDays nc 90
      exact hdl.symm

theorem compute_status_invariants_witness :
    compute_status ⟨1990, 1, 1⟩ ⟨2010, 1, 1⟩ ⟨2024, 6, 1⟩ =
      some ⟨"Обмен в 20 лет", some ⟨2035, 1, 1⟩, some ⟨2035, 4, 1⟩, "ok", some 3866⟩ ∧
    (((⟨"Обмен в 20 лет", some ⟨2035, 1, 1⟩, some ⟨2035, 4, 1⟩, "ok", some 3866⟩ :
        StatusReport).status_kind = "no_more" →
      (⟨"Обмен в 20 лет", some ⟨2035, 1, 1⟩, some ⟨2035, 4, 1⟩, "ok", some 3866⟩ :
        StatusReport).next_change = none ∧
      (⟨"Обмен в 20 лет", some ⟨2035, 1, 1⟩, some ⟨2035, 4, 1⟩, "ok", some 3866⟩ :
        StatusReport).deadline = none) ∧
    ((⟨"Обмен в 20 лет", some ⟨2035, 1, 1⟩, some ⟨2035, 4, 1⟩, "ok", some 3866⟩ :
        StatusReport).status_kind = "invalid" →
      (⟨"Обмен в 20 лет", some ⟨2035, 1, 1⟩, some ⟨2035, 4, 1⟩, "ok", some 3866⟩ :
        StatusReport).days_left = none) ∧
    (⟨"Обмен в 20 лет", some ⟨2035, 1, 1⟩, some ⟨2035, 4, 1⟩, "ok", some 3866⟩ :
        StatusReport).deadline =
      deadlineOf (⟨"Обмен в 20 лет", some ⟨2035, 1, 1⟩, some ⟨2035, 4, 1⟩, "ok",
        some 3866⟩ : StatusReport).next_change) :=
  ⟨by decide,
   compute_status_invariants ⟨1990, 1, 1⟩ ⟨2010, 1, 1⟩ ⟨2024, 6, 1⟩ _ (by decide)⟩

/-- C1: whenever `compute_status` reaches the classification step (a next
change date is present, hence also a deadline), exactly one of the three
date conditions holds and determines the status kind and `days_left`:
`today > deadline` gives `invalid` with no `days_left`;
`next_change ≤ today ≤ deadline` gives `due` with
`days_left = deadline - today ≥ 0`; `today < next_change` gives `ok` with
`days_left = next_change - today > 0`.  The fourth kind, `no_more`, never
occurs on this path. -/
theorem compute_status_classification (b i t : PyDate) (rep : StatusReport)
    (nc dl : PyDate) (ht : Valid t)
    (hrun : compute_status b i t = some rep)
    (hnc : rep.next_change = some nc)
    (hdl : rep.deadline = some dl) :
    (dateLt dl t → rep.status_kind = "invalid" ∧ rep.days_left = none) ∧
    ((dateLe nc t ∧ dateLe t dl) → rep.status_kind = "due" ∧
      rep.days_left = some (dayDiff dl t) ∧ 0 ≤ dayDiff dl t) ∧
    (dateLt t nc → rep.status_kind = "ok" ∧
      rep.days_left = some (dayDiff nc t) ∧ 0 < dayDiff nc t) ∧
    (dateLt dl t ∨ (dateLe nc t ∧ dateLe t dl) ∨ dateLt t nc) ∧
    ¬ (dateLt dl t ∧ (dateLe nc t ∧ dateLe t dl)) ∧
    ¬ (dateLt dl t ∧ dateLt t nc) ∧
    ¬ ((dateLe nc t ∧ dateLe t dl) ∧ dateLt t nc) ∧
    (rep.status_kind = "invalid" ∨ rep.status_kind = "due" ∨
      rep.status_kind = "ok") := by
  rcases compute_status_cases b i t rep hrun with
    ⟨h1, _⟩ | ⟨nc', dl', h1, h2, hvnc, hvdl, _, hRD, _, hcase⟩
  · rw [h1] at hnc; exact Option.noConfusion hnc
  · rw [h1] at hnc; rw [h2] at hdl
    injection hnc with e1; injection hdl with e2
    subst e1; subst e2
    have hvt : ValidYMD t := ht.1
    have hvncY : ValidYMD nc' := hvnc.1
    have hncdl : dateLt nc' dl' :=
      dateLt_of_toRataDie_lt hvncY hvdl (by omega)
    refine ⟨?_, ?_, ?_, ?_, ?_, ?_, ?_, ?_⟩
    · intro hI
      rcases hcase with ⟨_, hsk, hdlft⟩ | ⟨hnI, _, _, _⟩ | ⟨hnI, _, _, _⟩
      · exact ⟨hsk, hdlft⟩
      · exact absurd hI hnI
      · exact absurd hI hnI
    · rintro ⟨hD1, hD2⟩
      rcases hcase with ⟨hI, _, _⟩ | ⟨_, _, hsk, hdlft⟩ | ⟨_, hnle, _, _⟩
      · exact absurd (dateLt_of_dateLt_of_dateLe hI hD2) (dateLt_irrefl dl')
      · refine ⟨hsk, hdlft, ?_⟩
        have hle := toRataDie_le_of_dateLe hvt hvdl hD2
        have : (0 : Int) ≤ (toRataDie dl' : Int) - (toRataDie t : Int) := by omega
        exact this
      · exact absurd hD1 hnle
    · intro hO
      rcases hcase with ⟨hI, _, _⟩ | ⟨_, hle, _, _⟩ | ⟨_, _, hsk, hdlft⟩
      · exact absurd (dateLt_trans (dateLt_trans hO hncdl) hI) (dateLt_irrefl t)
      · exact absurd hle (not_dateLe_of_dateLt hO)
      · refine ⟨hsk, hdlft, ?_⟩
        have hlt := toRataDie_lt_of_dateLt hvt hvncY hO
        have : (0 : Int) < (toRataDie nc' : Int) - (toRataDie t : Int) := by omega
        exact this
    · by_cases hI : dateLt dl' t
      · exact Or.inl hI
      · by_cases hle : dateLe nc' t
        · exact Or.inr (Or.inl ⟨hle, not_dateLt_iff.mp hI⟩)
        · exact Or.inr (Or.inr (dateLt_iff_not_dateLe.mpr hle))
    · rintro ⟨hI, _, hD2⟩
      exact absurd (dateLt_of_dateLt_of_dateLe hI hD2) (dateLt_irrefl dl')
    · rintro ⟨hI, hO⟩
      exact absurd (dateLt_trans (dateLt_trans hO hncdl) hI) (dateLt_irrefl t)
    · rintro ⟨⟨hD1, _⟩, hO⟩
      exact absurd hD1 (not_dateLe_of_dateLt hO)
    · rcases hcase with ⟨_, hsk, _⟩ | ⟨_, _, hsk, _⟩ | ⟨_, _, hsk, _⟩
      · exact Or.inl hsk
      · exact Or.inr (Or.inl hsk)
      · exact Or.inr (Or.inr hsk)

theorem compute_status_classification_witness :
    Valid ⟨2024, 6, 1⟩ ∧
    ((dateLt ⟨2035, 4, 1⟩ ⟨2024, 6, 1⟩ →
      (⟨"Обмен в 20 лет", some ⟨2035, 1, 1⟩, some ⟨2035, 4, 1⟩, "ok", some 3866⟩ :
        StatusReport).status_kind = "invalid" ∧
      (⟨"Обмен в 20 лет", some ⟨2035, 1, 1⟩, some ⟨2035, 4, 1⟩, "ok", some 3866⟩ :
        StatusReport).days_left = none) ∧
    ((dateLe ⟨2035, 1, 1⟩ ⟨2024, 6, 1⟩ ∧ dateLe ⟨2024, 6, 1⟩ ⟨2035, 4, 1⟩) →
      (⟨"Обмен в 20 лет", some ⟨2035, 1, 1⟩, some ⟨2035, 4, 1⟩, "ok", some 3866⟩ :
        StatusReport).status_kind = "due" ∧
      (⟨"Обмен в 20 лет", some ⟨2035, 1, 1⟩, some ⟨2035, 4, 1⟩, "ok", some 3866⟩ :
        StatusReport).days_left = some (dayDiff ⟨2035, 4, 1⟩ ⟨2024, 6, 1⟩) ∧
      0 ≤ dayDiff ⟨2035, 4, 1⟩ ⟨2024, 6, 1⟩) ∧
    (dateLt ⟨2024, 6, 1⟩ ⟨2035, 1, 1⟩ →
      (⟨"Обмен в 20 лет", some ⟨2035, 1, 1⟩, some ⟨2035, 4, 1⟩, "ok", some 3866⟩ :
        StatusReport).status_kind = "ok" ∧
      (⟨"Обмен в 20 лет", some ⟨2035, 1, 1⟩, some ⟨2035, 4, 1⟩, "ok", some 3866⟩ :
        StatusReport).days_left = some (dayDiff ⟨2035, 1, 1⟩ ⟨2024, 6, 1⟩) ∧
      0 < dayDiff ⟨2035, 1, 1⟩ ⟨2024, 6, 1⟩) ∧
    (dateLt ⟨2035, 4, 1⟩ ⟨2024, 6, 1⟩ ∨
      (dateLe ⟨2035, 1, 1⟩ ⟨2024, 6, 1⟩ ∧ dateLe ⟨2024, 6, 1⟩ ⟨2035, 4, 1⟩) ∨
      dateLt ⟨2024, 6, 1⟩ ⟨2035, 1, 1⟩) ∧
    ¬ (dateLt ⟨2035, 4, 1⟩ ⟨2024, 6, 1⟩ ∧
      (dateLe ⟨2035, 1, 1⟩ ⟨2024, 6, 1⟩ ∧ dateLe ⟨2024, 6, 1⟩ ⟨2035, 4, 1⟩)) ∧
    ¬ (dateLt ⟨2035, 4, 1⟩ ⟨2024, 6, 1⟩ ∧ dateLt ⟨2024, 6, 1⟩ ⟨2035, 1, 1⟩) ∧
    ¬ ((dateLe ⟨2035, 1, 1⟩ ⟨2024, 6, 1⟩ ∧ dateLe ⟨2024, 6, 1⟩ ⟨2035, 4, 1⟩) ∧
      dateLt ⟨2024, 6, 1⟩ ⟨2035, 1, 1⟩) ∧
    ((⟨"Обмен в 20 лет", some ⟨2035, 1, 1⟩, some ⟨2035, 4, 1⟩, "ok", some 3866⟩ :
        StatusReport).status_kind = "invalid" ∨
      (⟨"Обмен в 20 лет", some ⟨2035, 1, 1⟩, some ⟨2035, 4, 1⟩, "ok", some 3866⟩ :
        StatusReport).status_kind = "due" ∨
      (⟨"Обмен в 20 лет", some ⟨2035, 1, 1⟩, some ⟨2035, 4, 1⟩, "ok", some 3866⟩ :
        StatusReport).status_kind = "ok")) :=
  ⟨by decide,
   compute_status_classification ⟨1990, 1, 1⟩ ⟨2010, 1, 1⟩ ⟨2024, 6, 1⟩
     ⟨"Обмен в 20 лет", some ⟨2035, 1, 1⟩, some ⟨2035, 4, 1⟩, "ok", some 3866⟩
     ⟨2035, 1, 1⟩ ⟨2035, 4, 1⟩ (by decide) (by decide) (by decide) (by decide)⟩

/-- C3 counterexample: on birth 1970-01-01, issue 1984-01-01,
today 2020-01-01, the deadline computed by `compute_status` is
1990-04-01 (`1990-01-01 + timedelta(days=90)`), not 1990-03-31 as the
specification example states. -/
theorem example2_deadline_counterexample :
    compute_status ⟨1970, 1, 1⟩ ⟨1984, 1, 1⟩ ⟨2020, 1, 1⟩ =
      some ⟨"Первичное получение в 14 лет", some ⟨1990, 1, 1⟩,
        some ⟨1990, 4, 1⟩, "invalid", none⟩ ∧
    (⟨1990, 4, 1⟩ : PyDate) ≠ ⟨1990, 3, 31⟩ := by
  exact ⟨by decide, by decide⟩

/-- C3 amended: the end-to-end example with the deadline corrected to
1990-04-01: the stage is 14 (issue equals birth+14y and precedes
birth+20y), the next change is d20 = 1990-01-01, the deadline is 90 days
later (1990-04-01), and today 2020-01-01 is past the deadline, so the
status is `invalid`. -/
theorem example2_end_to_end :
    current_passport_stage ⟨1970, 1, 1⟩ ⟨1984, 1, 1⟩ = some (some 14) ∧
    safe_add_years ⟨1970, 1, 1⟩ 20 = some ⟨1990, 1, 1⟩ ∧
    addDays ⟨1990, 1, 1⟩ 90 = some ⟨1990, 4, 1⟩ ∧
    compute_status ⟨1970, 1, 1⟩ ⟨1984, 1, 1⟩ ⟨2020, 1, 1⟩ =
      some ⟨"Первичное получение в 14 лет", some ⟨1990, 1, 1⟩,
        some ⟨1990, 4, 1⟩, "invalid", none⟩ := by
  exact ⟨by decide, by decide, by decide, by decide⟩

/-- C4 counterexample: for the well-formed inputs birth = issue-year
9999, `compute_status` raises (`safe_add_years` hits the `datetime`
year bound 9999 and the fallback `replace` raises `ValueError` as well),
so no `StatusReport` is returned. -/
theorem compute_status_overflow_counterexample :
    Valid ⟨9999, 1, 1⟩ ∧ Valid ⟨9999, 6, 1⟩ ∧
    compute_status ⟨9999, 1, 1⟩ ⟨9999, 6, 1⟩ ⟨9999, 6, 1⟩ = none := by
  exact ⟨by decide, by decide, by decide⟩

theorem addDays90_of_year_le {nc : PyDate} (h : Valid nc)
    (hy : nc.year ≤ 9998) : (addDays nc 90).isSome = true := by
  apply addDays_isSome h.1
  have hup := toRataDie_upper h.1
  have hmono : daysBeforeYear (nc.year + 1) ≤ daysBeforeYear 9999 :=
    daysBeforeYear_mono (by omega)
  have hnl : isLeap 9999 = false := by decide
  have hstep : daysBeforeYear 10000 = daysBeforeYear 9999 + 365 := by
    rw [daysBeforeYear_succ (y := 9999) (by omega), hnl]
    simp
  omega

/-- C4 amended: for well-formed date inputs whose birth year stays clear
of the `datetime` year bound (`birth.year + 45 ≤ 9998`, which covers every
input accepted by `validate_inputs` for many millennia), `compute_status`
returns a defined `StatusReport` — no branch raises. -/
theorem compute_status_total_in_range (b i t : PyDate) (hb : Valid b)
    (hi : Valid i) (ht : Valid t) (hy : b.year + 45 ≤ 9998) :
    (compute_status b i t).isSome = true := by
  have s14 := safe_add_years_isSome (n := 14) hb (by omega)
  have s20 := safe_add_years_isSome (n := 20) hb (by omega)
  have s45 := safe_add_years_isSome (n := 45) hb (by omega)
  rcases h14 : safe_add_years b 14 with _ | d14
  · simp [h14] at s14
  rcases h20 : safe_add_years b 20 with _ | d20
  · simp [h20] at s20
  rcases h45 : safe_add_years b 45 with _ | d45
  · simp [h45] at s45
  obtain ⟨stage, hst⟩ : ∃ s, current_passport_stage b i = some s := by
    refine ⟨if dateLe d45 i then some 45
      else if dateLe d20 i ∧ dateLt i d45 then some 20
      else if dateLe d14 i ∧ dateLt i d20 then some 14
      else none, ?_⟩
    simp [current_passport_stage, h14, h20, h45]
  simp only [compute_status, h20, h45, hst, Option.bind_eq_bind, Option.some_bind,
    Option.pure_def]
  by_cases hs45 : stage = some 45
  · rw [if_pos hs45]; rfl
  · rw [if_neg hs45]
    rcases hnc : (if stage = some 20 then some d45
        else if stage = some 14 then some d20
        else if dateLt t d20 then some d20
        else if dateLt t d45 then some d45
        else none) with _ | nc
    · simp only [hnc]; rfl
    · simp only [hnc]
      have hvnc : Valid nc ∧ nc.year ≤ 9998 := by
        split_ifs at hnc <;>
          first
            | exact Option.noConfusion hnc
            | (injection hnc with h; subst h;
               first
                 | exact ⟨(safe_add_years_some h45).1,
                     by rw [(safe_add_years_some h45).2]; omega⟩
                 | exact ⟨(safe_add_years_some h20).1,
                     by rw [(safe_add_years_some h20).2]; omega⟩)
      have hds := addDays90_of_year_le hvnc.1 hvnc.2
      rcases hdl : addDays nc 90 with _ | dl
      · simp [hdl] at hds
      · simp only [hdl, Option.some_bind]
        split_ifs <;> rfl

theorem compute_status_total_in_range_witness :
    Valid ⟨1990, 1, 1⟩ ∧ Valid ⟨2010, 1, 1⟩ ∧ Valid ⟨2024, 6, 1⟩ ∧
    (⟨1990, 1, 1⟩ : PyDate).year + 45 ≤ 9998 ∧
    (compute_status ⟨1990, 1, 1⟩ ⟨2010, 1, 1⟩ ⟨2024, 6, 1⟩).isSome = true :=
  ⟨by decide, by decide, by decide, by decide,
   compute_status_total_in_range ⟨1990, 1, 1⟩ ⟨2010, 1, 1⟩ ⟨2024, 6, 1⟩
     (by decide) (by decide) (by decide) (by decide)⟩


/-- Inside the `issue < d45` branch the extra interval bounds of
`current_passport_stage` are redundant, so the stage selector is a simple
staircase on the three thresholds. -/
theorem stage_ite_staircase {d14 d20 d45 i : PyDate} :
    (if dateLe d45 i then some 45
     else if dateLe d20 i ∧ dateLt i d45 then some 20
     else if dateLe d14 i ∧ dateLt i d20 then some 14
     else (none : Option Nat))
    = (if dateLe d45 i then some 45
       else if dateLe d20 i then some 20
       else if dateLe d14 i then some 14
       else none) := by
  by_cases h45 : dateLe d45 i
  · simp [h45]
  · have hlt45 : dateLt i d45 := dateLt_iff_not_dateLe.mpr h45
    by_cases h20 : dateLe d20 i
    · simp [h45, h20, hlt45]
    · have hlt20 : dateLt i d20 := dateLt_iff_not_dateLe.mpr h20
      by_cases h14 : dateLe d14 i
      · simp [h45, h20, h14, hlt20]
      · simp [h45, h20, h14]

theorem staircase_rank_mono {d14 d20 d45 i1 i2 : PyDate} (hle : dateLe i1 i2) :
    stageRank (if dateLe d45 i1 then some 45
      else if dateLe d20 i1 then some 20
      else if dateLe d14 i1 then some 14
      else none)
    ≤ stageRank (if dateLe d45 i2 then some 45
      else if dateLe d20 i2 then some 20
      else if dateLe d14 i2 then some 14
      else none) := by
  have t45 : dateLe d45 i1 → dateLe d45 i2 := fun h => dateLe_trans h hle
  have t20 : dateLe d20 i1 → dateLe d20 i2 := fun h => dateLe_trans h hle
  have t14 : dateLe d14 i1 → dateLe d14 i2 := fun h => dateLe_trans h hle
  split_ifs <;> first | decide | tauto

/-- C5: for a fixed birth date, the stage computed by
`current_passport_stage` is monotone non-decreasing in the issue date
along Unknown < 14 < 20 < 45, and stays at 45 once the issue date has
passed d45 = birth+45y. -/
theorem current_passport_stage_monotone (b i1 i2 : PyDate)
    (s1 s2 : Option Nat) (d45 : PyDate)
    (h1 : current_passport_stage b i1 = some s1)
    (h2 : current_passport_stage b i2 = some s2)
    (h45 : safe_add_years b 45 = some d45)
    (hle : dateLe i1 i2) :
    stageRank s1 ≤ stageRank s2 ∧ (dateLe d45 i2 → s2 = some 45) := by
  rcases h14 : safe_add_years b 14 with _ | d14
  · simp [current_passport_stage, h14] at h1
  rcases h20 : safe_add_years b 20 with _ | d20
  · simp [current_passport_stage, h14, h20] at h1
  simp only [current_passport_stage, h14, h20, h45, Option.bind_eq_bind,
    Option.some_bind, Option.pure_def, Option.some.injEq] at h1 h2
  subst h1
  subst h2
  rw [stage_ite_staircase, stage_ite_staircase]
  constructor
  · exact staircase_rank_mono hle
  · intro h
    rw [if_pos h]

theorem current_passport_stage_monotone_witness :
    current_passport_stage ⟨1990, 1, 1⟩ ⟨2005, 1, 1⟩ = some (some 14) ∧
    current_passport_stage ⟨1990, 1, 1⟩ ⟨2012, 1, 1⟩ = some (some 20) ∧
    safe_add_years ⟨1990, 1, 1⟩ 45 = some ⟨2035, 1, 1⟩ ∧
    dateLe ⟨2005, 1, 1⟩ ⟨2012, 1, 1⟩ ∧
    (stageRank (some 14) ≤ stageRank (some 20) ∧
      (dateLe ⟨2035, 1, 1⟩ ⟨2012, 1, 1⟩ → (some 20 : Option Nat) = some 45)) :=
  ⟨by decide, by decide, by decide, by decide,
   current_passport_stage_monotone ⟨1990, 1, 1⟩ ⟨2005, 1, 1⟩ ⟨2012, 1, 1⟩
     (some 14) (some 20) ⟨2035, 1, 1⟩ (by decide) (by decide) (by decide)
     (by decide)⟩

/-- C6 counterexample: starting from Feb 29 of the leap year 2096 and
adding 7905 years, the target year 10001 is non-leap, yet `safe_add_years`
does not return Feb 28 of it: both `replace` calls raise `ValueError`
because the year exceeds `datetime.MAXYEAR` = 9999, so the exception
escapes (`none`). -/
theorem safe_add_years_overflow_counterexample :
    isLeap 2096 = true ∧ isLeap (2096 + 7905) = false ∧
    Valid ⟨2096, 2, 29⟩ ∧
    safe_add_years ⟨2096, 2, 29⟩ 7905 = none := by
  exact ⟨by decide, by decide, by decide, by decide⟩

/-- C6 amended: for a valid date d = Feb 29 of a (leap) year and any year
count N such that d.year+N is non-leap and still representable
(`d.year + N ≤ 9999`), `safe_add_years` returns Feb 28 of year d.year+N;
the year component of the result is exactly d.year+N. -/
theorem safe_add_years_feb29 (y n : Nat) (hv : Valid ⟨y, 2, 29⟩)
    (hnl : isLeap (y + n) = false) (hb : y + n ≤ 9999) :
    safe_add_years ⟨y, 2, 29⟩ n = some ⟨y + n, 2, 28⟩ := by
  have hy1 : 1 ≤ y := hv.1.1
  have hdim : daysInMonth (y + n) 2 = 28 := by
    show (if isLeap (y + n) = true then 29 else 28) = 28
    rw [hnl]
    simp
  have hnv : ¬ Valid ⟨y + n, 2, 29⟩ := by
    intro hc
    have h29 : 29 ≤ daysInMonth (y + n) 2 := hc.1.2.2.2.2
    omega
  have hv' : Valid ⟨y + n, 2, 28⟩ := by
    constructor
    · show 1 ≤ y + n ∧ 1 ≤ 2 ∧ 2 ≤ 12 ∧ 1 ≤ 28 ∧ 28 ≤ daysInMonth (y + n) 2
      omega
    · show y + n ≤ 9999
      omega
  simp only [safe_add_years]
  rw [if_neg hnv, if_pos hv']

theorem safe_add_years_feb29_witness :
    Valid ⟨2096, 2, 29⟩ ∧ isLeap (2096 + 5) = false ∧ 2096 + 5 ≤ 9999 ∧
    safe_add_years ⟨2096, 2, 29⟩ 5 = some ⟨2096 + 5, 2, 28⟩ :=
  ⟨by decide, by decide, by decide,
   safe_add_years_feb29 2096 5 (by decide) (by decide) (by decide)⟩


/-- Two decidable conditions that are equivalent select the same branch. -/
theorem if_iff_list {c d : Prop} [Decidable c] [Decidable d] (h : c ↔ d)
    (l : List String) : (if c then l else []) = (if d then l else []) := by
  by_cases hc : c
  · rw [if_pos hc, if_pos (h.mp hc)]
  · rw [if_neg hc, if_neg (fun hd => hc (h.mpr hd))]

/-- C7 counterexample: on well-formed inputs with birth year 9990,
`validate_inputs` raises (`safe_add_years(birth, 14)` targets year 10004,
beyond `datetime.MAXYEAR`) instead of returning the violation list. -/
theorem validate_inputs_overflow_counterexample :
    Valid ⟨9990, 1, 1⟩ ∧ Valid ⟨9999, 1, 1⟩ ∧
    validate_inputs ⟨9990, 1, 1⟩ ⟨9999, 1, 1⟩ ⟨9999, 1, 1⟩ = none := by
  exact ⟨by decide, by decide, by decide⟩

/-- C7 amended: whenever `safe_add_years(birth, 14)` is representable
(`birth.year + 14 ≤ 9999`, hence some `d14` exists), `validate_inputs`
returns exactly the concatenation of the messages of the violated rules,
each rule checked independently: birth not after today; issue not after
today; issue not before birth; whole elapsed years (`relativedelta`)
from birth to today at least 14; issue not before `d14`; birth within
`[1900-01-01, today]`; issue within `[1900-01-01, today]`. -/
theorem validate_inputs_rules (b i t d14 : PyDate)
    (hd14 : safe_add_years b 14 = some d14) :
    validate_inputs b i t = some (
      (if ¬ dateLe b t then [msg_birth_future] else []) ++
      (if ¬ dateLe i t then [msg_issue_future] else []) ++
      (if dateLt i b then [msg_issue_before_birth] else []) ++
      (if rd_years t b < 14 then [msg_under_14] else []) ++
      (if dateLt i d14 then [msg_issue_before_d14] else []) ++
      (if ¬ (dateLe MIN_BIRTH b ∧ dateLe b t) then [msg_birth_range t]
        else []) ++
      (if ¬ (dateLe MIN_ISSUE i ∧ dateLe i t) then [msg_issue_range t]
        else [])) := by
  unfold validate_inputs
  rw [hd14]
  rw [if_iff_list (dateLt_iff_not_dateLe (a := t) (b := b)) [msg_birth_future]]
  rw [if_iff_list (dateLt_iff_not_dateLe (a := t) (b := i)) [msg_issue_future]]

theorem validate_inputs_rules_witness :
    safe_add_years ⟨2020, 1, 1⟩ 14 = some ⟨2034, 1, 1⟩ ∧
    validate_inputs ⟨2020, 1, 1⟩ ⟨2019, 1, 1⟩ ⟨2024, 1, 1⟩ = some (
      (if ¬ dateLe ⟨2020, 1, 1⟩ ⟨2024, 1, 1⟩ then [msg_birth_future] else []) ++
      (if ¬ dateLe ⟨2019, 1, 1⟩ ⟨2024, 1, 1⟩ then [msg_issue_future] else []) ++
      (if dateLt ⟨2019, 1, 1⟩ ⟨2020, 1, 1⟩ then [msg_issue_before_birth]
        else []) ++
      (if rd_years ⟨2024, 1, 1⟩ ⟨2020, 1, 1⟩ < 14 then [msg_under_14]
        else []) ++
      (if dateLt ⟨2019, 1, 1⟩ ⟨2034, 1, 1⟩ then [msg_issue_before_d14]
        else []) ++
      (if ¬ (dateLe MIN_BIRTH ⟨2020, 1, 1⟩ ∧
          dateLe ⟨2020, 1, 1⟩ ⟨2024, 1, 1⟩) then
        [msg_birth_range ⟨2024, 1, 1⟩] else []) ++
      (if ¬ (dateLe MIN_ISSUE ⟨2019, 1, 1⟩ ∧
          dateLe ⟨2019, 1, 1⟩ ⟨2024, 1, 1⟩) then
        [msg_issue_range ⟨2024, 1, 1⟩] else [])) :=
  ⟨by decide,
   validate_inputs_rules ⟨2020, 1, 1⟩ ⟨2019, 1, 1⟩ ⟨2024, 1, 1⟩ ⟨2034, 1, 1⟩
     (by decide)⟩


/-- C8: the composed message depends only on which of the three category
keys are present in the request (so permutations and duplicates are
irrelevant), and the selected categories always appear as a subsequence
of the fixed priority order SOF, ID, UB. -/
theorem compose_set_invariance (lang : Lang) (r1 r2 : List String)
    (hS : r1.contains "SOF" = r2.contains "SOF")
    (hI : r1.contains "ID" = r2.contains "ID")
    (hU : r1.contains "UB" = r2.contains "UB") :
    compose lang r1 = compose lang r2 ∧
    List.Sublist (sort_by_priority r1) PRIORITY := by
  have hsort : sort_by_priority r1 = sort_by_priority r2 := by
    unfold sort_by_priority
    apply List.filter_congr
    intro x hx
    have hx' : x = "SOF" ∨ x = "ID" ∨ x = "UB" := by
      simpa [PRIORITY] using hx
    rcases hx' with rfl | rfl | rfl
    · exact hS
    · exact hI
    · exact hU
  constructor
  · unfold compose render_middle_adaptive
    rw [hsort]
  · exact List.filter_sublist PRIORITY

theorem compose_set_invariance_witness :
    (["UB", "SOF"].contains "SOF" = ["SOF", "UB"].contains "SOF") ∧
    (["UB", "SOF"].contains "ID" = ["SOF", "UB"].contains "ID") ∧
    (["UB", "SOF"].contains "UB" = ["SOF", "UB"].contains "UB") ∧
    (compose Lang.English ["UB", "SOF"] = compose Lang.English ["SOF", "UB"] ∧
      List.Sublist (sort_by_priority ["UB", "SOF"]) PRIORITY) :=
  ⟨by decide, by decide, by decide,
   compose_set_invariance Lang.English ["UB", "SOF"] ["SOF", "UB"]
     (by decide) (by decide) (by decide)⟩

/-- C9: for a request with at least one category selected, the composed
message is exactly what the specification's steps 2-5 describe: intro,
the per-category blocks (lead / additional / final sentence by position,
trailing boilerplate appended, block stripped) joined by blank lines,
then the closing, all blank-line separated and trimmed. -/
theorem compose_matches_spec (lang : Lang) (reqs : List String)
    (hne : sort_by_priority reqs ≠ []) :
    compose lang reqs = some (composeSpec lang reqs) := by
  cases lang <;>
    cases hS : reqs.contains "SOF" <;>
    cases hI : reqs.contains "ID" <;>
    cases hU : reqs.contains "UB" <;>
    · simp only [compose, render_middle_adaptive, composeSpec, sort_by_priority,
        PRIORITY, catKey, List.filter, hS, hI, hU]
      rfl

theorem compose_matches_spec_witness :
    sort_by_priority ["ID"] ≠ [] ∧
    compose Lang.English ["ID"] = some (composeSpec Lang.English ["ID"]) :=
  ⟨by decide, compose_matches_spec Lang.English ["ID"] (by decide)⟩

/-- Any character of a `replaceL` output comes from the replacement text
or from the input. -/
theorem mem_replaceL (pat rep : List Char) (x : Char) :
    ∀ s, x ∈ replaceL pat rep s → x ∈ rep ∨ x ∈ s := by
  have key : ∀ n s, List.length s ≤ n → x ∈ replaceL pat rep s →
      x ∈ rep ∨ x ∈ s := by
    intro n
    induction n with
    | zero =>
      intro s hs hx
      have hnil : s = [] := List.eq_nil_of_length_eq_zero (by omega)
      subst hnil
      simp [replaceL] at hx
    | succ k ih =>
      intro s hs hx
      match s with
      | [] => simp [replaceL] at hx
      | c :: rest =>
        rw [replaceL] at hx
        split_ifs at hx with h
        · rcases List.mem_append.mp hx with h1 | h1
          · exact Or.inl h1
          · have hlen : (List.drop (pat.length - 1) rest).length ≤ k := by
              simp only [List.length_drop]
              simp only [List.length_cons] at hs
              omega
            rcases ih _ hlen h1 with h2 | h2
            · exact Or.inl h2
            · exact Or.inr (List.mem_cons_of_mem c (List.mem_of_mem_drop h2))
        · rcases List.mem_cons.mp hx with rfl | h1
          · exact Or.inr (List.mem_cons_self _ _)
          · have hlen : rest.length ≤ k := by
              simp only [List.length_cons] at hs
              omega
            rcases ih rest hlen h1 with h2 | h2
            · exact Or.inl h2
            · exact Or.inr (List.mem_cons_of_mem c h2)
  intro s
  exact key s.length s (le_refl _)

/-- Replacing a single character removes every occurrence of it, provided
the replacement text does not reintroduce it. -/
theorem not_mem_replaceL_single (c : Char) (rep : List Char) (hrep : c ∉ rep) :
    ∀ s, c ∉ replaceL [c] rep s := by
  have key : ∀ n s, List.length s ≤ n → c ∉ replaceL [c] rep s := by
    intro n
    induction n with
    | zero =>
      intro s hs
      have hnil : s = [] := List.eq_nil_of_length_eq_zero (by omega)
      subst hnil
      simp [replaceL]
    | succ k ih =>
      intro s hs
      match s with
      | [] => simp [replaceL]
      | hd :: rest =>
        rw [replaceL]
        split_ifs with h
        · intro hx
          rcases List.mem_append.mp hx with h1 | h1
          · exact hrep h1
          · have hlen : (List.drop ([c].length - 1) rest).length ≤ k := by
              simp only [List.length_drop]
              simp only [List.length_cons] at hs
              omega
            exact ih _ hlen h1
        · intro hx
          rcases List.mem_cons.mp hx with h1 | h1
          · apply h
            refine ⟨by simp, ?_⟩
            subst h1
            simp [List.isPrefixOf]
          · have hlen : rest.length ≤ k := by
              simp only [List.length_cons] at hs
              omega
            exact ih rest hlen h1
  intro s
  exact key s.length s (le_refl _)

/-- C10: the output of `js_escape` contains no carriage return and no raw
newline: carriage returns are deleted outright, newlines become the
two-character sequence backslash-n, and no later pass reintroduces
either character. -/
theorem js_escape_no_newlines (s : List Char) :
    '\r' ∉ js_escape s ∧ '\n' ∉ js_escape s := by
  unfold js_escape
  constructor
  · intro hmem
    rcases mem_replaceL _ _ _ _ hmem with h | h
    · simp at h
    · exact not_mem_replaceL_single '\r' [] (by simp) _ h
  · exact not_mem_replaceL_single '\n' ['\\', 'n'] (by decide) _

end ComplianceApp
